import Mathlib

/-!
Verification of the chatty client-side synchronization engine.

The definitions below are a shallow embedding of the cache-patch code of
the repository:

* `isDuplicateMessage` and the `createMessage` mutation `update` function
  (client/src/screens/messages.screen.js, steps 4.10 and 4.11);
* `isDuplicateGroup` and the `createGroup` mutation `update` function
  (client/src/screens/finalize-group.screen.js, step 4.13);
* `isDuplicateDocument` and the `subscribeToMessages` / `subscribeToGroups`
  `updateQuery` reducers (client/src/navigation.js);
* `applyBatchMiddleware`, `applyBatchAfterware` and the subscription
  client's `connectionParams` (client/src/app.js).

JavaScript `null`-able entity ids are embedded as `Option Int` (`none`
stands for `null`); fallible reducers (those that can throw a `TypeError`
at runtime) return `Option`.
-/

namespace Chatty

/-- A user object as it appears inside a Message (`from` field: id and
username). -/
structure MsgUser where
  id : Option Int
  username : String
deriving DecidableEq, Repr

/-- The group reference carried by a Message (`to` field: id only). -/
structure GroupRef where
  id : Option Int
deriving DecidableEq, Repr

/-- A Message result tree: `{ id, text, createdAt, from, to }`. -/
structure Message where
  id : Option Int
  text : String
  createdAt : String
  sender : MsgUser
  toGroup : GroupRef
deriving DecidableEq, Repr

/-- A Group result tree: `{ id, name, messages }`. -/
structure Group where
  id : Option Int
  name : String
  messages : List Message
deriving DecidableEq, Repr

/-- The USER_QUERY result tree: `{ id, email, groups }`. -/
structure UserResult where
  id : Option Int
  email : String
  groups : List Group
deriving DecidableEq, Repr

/-- Duck-typed id projection, mirroring JavaScript's structural access
`document.id` used by `isDuplicateDocument`. -/
class HasId (α : Type) where
  docId : α → Option Int

instance : HasId Message := ⟨Message.id⟩

instance : HasId Group := ⟨Group.id⟩

/-- navigation.js, `isDuplicateDocument(newDocument, existingDocuments)`:
`newDocument.id !== null && existingDocuments.some(doc => newDocument.id === doc.id)`. -/
def isDuplicateDocument {α : Type} [HasId α] (newDocument : α)
    (existingDocuments : List α) : Bool :=
  HasId.docId newDocument != none &&
    existingDocuments.any (fun doc => HasId.docId newDocument == HasId.docId doc)

/-- messages.screen.js, `isDuplicateMessage(newMessage, existingMessages)`:
`newMessage.id !== null && existingMessages.some(message => newMessage.id === message.id)`. -/
def isDuplicateMessage (newMessage : Message) (existingMessages : List Message) : Bool :=
  newMessage.id != none &&
    existingMessages.any (fun message => newMessage.id == message.id)

/-- finalize-group.screen.js, `isDuplicateGroup(newGroup, existingGroups)`:
`newGroup.id !== null && existingGroups.some(group => newGroup.id === group.id)`. -/
def isDuplicateGroup (newGroup : Group) (existingGroups : List Group) : Bool :=
  newGroup.id != none &&
    existingGroups.any (fun group => newGroup.id == group.id)

/-- The `update` function of `createMessageMutation` (messages.screen.js,
step 4.10), expressed as its net effect on the cached GROUP_QUERY result:
read the cached group, return it unchanged when `isDuplicateMessage`
fires, otherwise `unshift` the new message and write the result back. -/
def createMessageUpdate (group : Group) (createMessage : Message) : Group :=
  if isDuplicateMessage createMessage group.messages then group
  else { group with messages := createMessage :: group.messages }

/-- The `update` function of `createGroupMutation`
(finalize-group.screen.js, step 4.13), expressed as its net effect on the
cached USER_QUERY result: return it unchanged when `isDuplicateGroup`
fires, otherwise `push` the new group and write the result back. -/
def createGroupUpdate (user : UserResult) (createGroup : Group) : UserResult :=
  if isDuplicateGroup createGroup user.groups then user
  else { user with groups := user.groups ++ [createGroup] }

/-- The `updateQuery` reducer of `subscribeToMessages` (navigation.js):
`groupIndex` is the index of the first cached group whose id equals the
incoming message's `to.id` (lodash `map` to ids, then `indexOf`), then
`previousGroups[groupIndex].messages` is accessed with no presence check
(a missing group yields index -1 and a TypeError, embedded as `none`);
on a duplicate the previous result is returned unchanged; otherwise the
group's `messages` field is replaced by `$set: [newMessage]`. -/
def messageAddedReduce (previousResult : UserResult) (newMessage : Message) :
    Option UserResult :=
  let previousGroups := previousResult.groups
  let groupIndex := previousGroups.findIdx (fun group => group.id == newMessage.toGroup.id)
  match previousGroups.get? groupIndex with
  | none => none
  | some group =>
    if isDuplicateDocument newMessage group.messages then
      some previousResult
    else
      some { previousResult with
             groups := previousGroups.set groupIndex { group with messages := [newMessage] } }

/-- The `updateQuery` reducer of `subscribeToGroups` (navigation.js): on a
duplicate the previous result is returned unchanged; otherwise the new
group is `$push`-ed onto `user.groups`. -/
def groupAddedReduce (previousResult : UserResult) (newGroup : Group) : UserResult :=
  if isDuplicateDocument newGroup previousResult.groups then previousResult
  else { previousResult with groups := previousResult.groups ++ [newGroup] }

/-! ## Batched transport and auth interceptor (client/src/app.js) -/

/-- A GraphQL error object; lodash's `some(response.errors,
\x7b message: 'Unauthorized' \x7d)` matches on the `message` property. -/
structure GraphQLError where
  message : String
deriving DecidableEq, Repr

/-- One response of a batch: `\x7b data?, errors? \x7d`. `errors`, when present,
is an array (possibly empty — an empty array is still truthy in
JavaScript, so it passes the `if (response.errors)` guard). -/
structure Response where
  payload : Option String
  errors : Option (List GraphQLError)
deriving DecidableEq, Repr

/-- The flag computed by `applyBatchAfterware`'s `forEach` loop: it starts
`false` and is set to `true` by any response whose `errors` array contains
an error with message `'Unauthorized'`; it is never reset. -/
def batchIsUnauthorized (responses : List Response) : Bool :=
  responses.foldl
    (fun isUnauthorized response =>
      match response.errors with
      | none => isUnauthorized
      | some errs =>
        if errs.any (fun e => e.message == "Unauthorized") then true
        else isUnauthorized)
    false

/-- `applyBatchAfterware(\x7b responses \x7d, next)`: scans the batch, then
dispatches `logout()` once if the flag is set, and calls `next()` with the
responses untouched. Returns the forwarded responses and the number of
`logout()` dispatches. -/
def applyBatchAfterware (responses : List Response) : List Response × Nat :=
  (responses, if batchIsUnauthorized responses then 1 else 0)

/-- Request headers; only the `authorization` key is ever written. -/
structure Headers where
  authorization : Option String
deriving DecidableEq, Repr

/-- `applyBatchMiddleware(req, next)`: initialise `req.options.headers` to
`\x7b\x7d` when absent, read the current `jwt` from the store, and set
`headers.authorization = Bearer <jwt>` only when the jwt is present. -/
def applyBatchMiddleware (storeJwt : Option String) (headers : Option Headers) : Headers :=
  let h := headers.getD { authorization := none }
  match storeJwt with
  | some jwt => { h with authorization := some ("Bearer " ++ jwt) }
  | none => h

/-- `wsClient`'s `connectionParams()`: returns `\x7b jwt: store.getState().auth.jwt \x7d`,
reading the credential at the moment the (re)connection is attempted. -/
def connectionParams (storeJwt : Option String) : Option String :=
  storeJwt

/-- External credential-lifecycle and network events, in delivery order:
sign-in stores a jwt, sign-out clears it, `sendBatch` prepares an outgoing
batch (running `applyBatchMiddleware` on a fresh request), `reconnect` is
a (re)connection attempt of the subscription client (running
`connectionParams`). -/
inductive AuthEvent
  | signIn (jwt : String)
  | signOut
  | sendBatch
  | reconnect
deriving DecidableEq, Repr

/-- Observable network actions produced by the transport layer. -/
inductive NetAction
  | batchSent (authorization : Option String)
  | connectAttempt (jwtParam : Option String)
deriving DecidableEq, Repr

/-- The process-wide credential after a sequence of events
(`store.getState().auth.jwt`). -/
def credAfter (jwt : Option String) : List AuthEvent → Option String
  | [] => jwt
  | AuthEvent.signIn t :: es => credAfter (some t) es
  | AuthEvent.signOut :: es => credAfter none es
  | AuthEvent.sendBatch :: es => credAfter jwt es
  | AuthEvent.reconnect :: es => credAfter jwt es

/-- The trace of network actions: each outgoing batch runs
`applyBatchMiddleware` against the credential current at that moment on a
fresh request (no headers yet), each (re)connection attempt evaluates
`connectionParams` against the credential current at that moment; a
reconnect is attempted whether or not a credential is present. -/
def runAuth (jwt : Option String) : List AuthEvent → List NetAction
  | [] => []
  | AuthEvent.signIn t :: es => runAuth (some t) es
  | AuthEvent.signOut :: es => runAuth none es
  | AuthEvent.sendBatch :: es =>
    NetAction.batchSent (applyBatchMiddleware jwt none).authorization :: runAuth jwt es
  | AuthEvent.reconnect :: es =>
    NetAction.connectAttempt (connectionParams jwt) :: runAuth jwt es

/-! ## Mutation reconciliation engine

Modelled from the spec: the optimistic-write / revert / re-patch
machinery lives in `apollo-client` (the Mutation Reconciliation Engine of
spec section 4.4 and design note section 9), which is a dependency, not a
source file of this repository. Only its inputs — `optimisticResponse`
and the `update` patch function — are in the repository's source. The
model follows the spec's words: the speculative result is applied through
the caller's patch function as a tagged layer over the prior cache value;
on success the speculative effect is replaced by patching the prior value
with the authoritative result; on failure the prior cache value is
restored and the error is re-raised. -/

/-- Modelled from the spec: the state of one in-flight `createMessage`
mutation over a single GROUP_QUERY cache slot — the prior (authoritative)
value plus an optional speculative layer (spec sections 4.4 and 9:
tagged-union cache entry, phase 1 speculative, phase 2 authoritative). -/
structure MutationState where
  base : Group
  optimistic : Option Group
deriving DecidableEq, Repr

/-- Modelled from the spec (section 4.4): issuing `mutate` writes the
speculative result through the caller's patch function before the network
call; the speculative layer sits over the untouched prior value. -/
def beginMutation (cache : Group) (speculativeResult : Option Message) : MutationState :=
  { base := cache, optimistic := speculativeResult.map (createMessageUpdate cache) }

/-- Modelled from the spec: what the UI reads while the mutation is in
flight — the speculative layer when present, the base value otherwise. -/
def visibleCache (s : MutationState) : Group :=
  (s.optimistic).getD s.base

/-- Modelled from the spec (section 4.4): on success the speculative
effect is replaced by invoking the patch function on the prior value with
the authoritative result; on failure the prior value is restored and the
error is re-raised to the caller. Returns the final cache value and the
re-raised error, if any. -/
def completeMutation (s : MutationState) (response : Except String Message) :
    Group × Option String :=
  match response with
  | Except.ok authoritative => (createMessageUpdate s.base authoritative, none)
  | Except.error e => (s.base, some e)

/-- The `optimisticResponse` of `createMessage` (messages.screen.js, step
4.11): sentinel id `-1`, the known text, a fabricated `createdAt`, the
(faked) sending user, and the target group. -/
def optimisticResponse (text : String) (createdAt : String) (groupId : Option Int) : Message :=
  { id := some (-1), text := text, createdAt := createdAt,
    sender := { id := some 1, username := "Justyn.Kautzer" }, toGroup := { id := groupId } }

/-- What `FinalizeGroup.create` (finalize-group.screen.js) does with the
settled `createGroup` promise: navigate on success, alert with the
error's message on failure. -/
inductive CreateEffect
  | navigate (group : Group)
  | alert (title : String) (message : String)
deriving DecidableEq, Repr

/-- `FinalizeGroup.create`: `createGroup(...).then(res => dispatch(goToNewGroup(...)))
.catch(error => Alert.alert('Error Creating New Group', error.message, ...))`. -/
def finalizeGroupCreate (result : Except String Group) : CreateEffect :=
  match result with
  | Except.ok g => CreateEffect.navigate g
  | Except.error e => CreateEffect.alert "Error Creating New Group" e

/-! ## The client cache as a whole, and the events that patch it

The patched entries are the single cached USER_QUERY result
(`userResult`) and the cached GROUP_QUERY results, keyed by the
`groupId` variable of the query. -/

/-- The Apollo store restricted to the entries the patch functions touch. -/
structure ClientCache where
  userResult : UserResult
  groupResults : List (Int × Group)
deriving DecidableEq, Repr

/-- One cache-patching occurrence: a `createMessage` mutation response
patched into the GROUP_QUERY entry for `groupId`, an incoming
`messageAdded` subscription event, a `createGroup` mutation response, or
an incoming `groupAdded` subscription event. -/
inductive CacheEvent
  | messageMutation (groupId : Int) (createMessage : Message)
  | messageSub (newMessage : Message)
  | groupMutation (createGroup : Group)
  | groupSub (newGroup : Group)
deriving DecidableEq, Repr

/-- Apply one event to the cache. `none` models a thrown exception: the
`messageAdded` reducer throws when `to.id` matches no cached group, and
`store.readQuery` throws when the GROUP_QUERY entry is absent. -/
def applyEvent (c : ClientCache) : CacheEvent → Option ClientCache
  | CacheEvent.messageMutation groupId m =>
    let i := c.groupResults.findIdx (fun entry => entry.1 == groupId)
    match c.groupResults.get? i with
    | none => none
    | some entry =>
      some { c with groupResults := c.groupResults.set i (entry.1, createMessageUpdate entry.2 m) }
  | CacheEvent.messageSub m =>
    (messageAddedReduce c.userResult m).map (fun u => { c with userResult := u })
  | CacheEvent.groupMutation g =>
    some { c with userResult := createGroupUpdate c.userResult g }
  | CacheEvent.groupSub g =>
    some { c with userResult := groupAddedReduce c.userResult g }

/-- Apply a sequence of events left to right, stopping at the first
thrown exception. -/
def applyEvents (c : ClientCache) : List CacheEvent → Option ClientCache
  | [] => some c
  | e :: es =>
    match applyEvent c e with
    | none => none
    | some c' => applyEvents c' es

/-- The no-duplicate-identities invariant: the user's group list holds no
two groups with equal id, and every cached messages list (inside the
USER_QUERY groups and inside each GROUP_QUERY entry) holds no two
messages with equal id. -/
def CacheInv (c : ClientCache) : Prop :=
  (c.userResult.groups.map Group.id).Nodup ∧
    (∀ g ∈ c.userResult.groups, (g.messages.map Message.id).Nodup) ∧
    (∀ entry ∈ c.groupResults, ((entry.2).messages.map Message.id).Nodup)

instance (c : ClientCache) : Decidable (CacheInv c) := by
  unfold CacheInv; infer_instance

/-- An event is well formed when the entity it inserts into a persistent
list has a non-null id and, for a carried group, the group's own messages
list satisfies the data-model invariant. A `messageAdded` subscription
event needs no condition: its `$set` replaces the target list with a
singleton, which cannot create a duplicate. -/
def EventWF : CacheEvent → Prop
  | CacheEvent.messageMutation _ m => m.id ≠ none
  | CacheEvent.messageSub _ => True
  | CacheEvent.groupMutation g => g.id ≠ none ∧ (g.messages.map Message.id).Nodup
  | CacheEvent.groupSub g => g.id ≠ none ∧ (g.messages.map Message.id).Nodup

instance (e : CacheEvent) : Decidable (EventWF e) := by
  cases e <;> (unfold EventWF; infer_instance)

/-- One response taken alone carries the authorization-failure marker:
its `errors` array is present and some error has message `'Unauthorized'`
(the per-response body of the afterware's `forEach`). -/
def responseUnauthorized (response : Response) : Bool :=
  match response.errors with
  | none => false
  | some errs => errs.any (fun e => e.message == "Unauthorized")

/-! ## Concrete fixtures used by witnesses and counterexamples -/

/-- A confirmed message, id 1. -/
def msg1 : Message :=
  { id := some 1, text := "m1", createdAt := "t1",
    sender := { id := some 1, username := "u" }, toGroup := { id := some 1 } }

/-- A confirmed message, id 2, for the same group. -/
def msg2 : Message :=
  { id := some 2, text := "m2", createdAt := "t2",
    sender := { id := some 1, username := "u" }, toGroup := { id := some 1 } }

/-- The authoritative message of the optimistic-send scenario: id 42,
text "hi". -/
def msg42 : Message :=
  { id := some 42, text := "hi", createdAt := "t42",
    sender := { id := some 1, username := "Justyn.Kautzer" }, toGroup := { id := some 1 } }

/-- A message whose id is null. -/
def msgNull : Message :=
  { id := none, text := "n", createdAt := "tn",
    sender := { id := some 1, username := "u" }, toGroup := { id := some 1 } }

/-- A cached group, id 1, holding `msg1`. -/
def group1 : Group := { id := some 1, name := "g1", messages := [msg1] }

/-- An empty cached group, id 1. -/
def group1empty : Group := { id := some 1, name := "g1", messages := [] }

/-- A pushed group, id 7, with no messages. -/
def group7 : Group := { id := some 7, name := "g7", messages := [] }

/-- A group whose id is null. -/
def groupNull : Group := { id := none, name := "gn", messages := [] }

/-- A cached USER_QUERY result holding `group1`. -/
def user1 : UserResult := { id := some 1, email := "e", groups := [group1] }

/-- A cached USER_QUERY result with no groups. -/
def user0 : UserResult := { id := some 1, email := "e", groups := [] }

/-- A cache state holding `user1` and a GROUP_QUERY entry for group 1. -/
def cache1 : ClientCache := { userResult := user1, groupResults := [(1, group1)] }

/-- Group 1 after a `messageAdded` event for `msg2` replaced its list. -/
def group1m2 : Group := { id := some 1, name := "g1", messages := [msg2] }

/-- Group 1 after the mutation patch prepended `msg2` to `[msg1]`. -/
def group1m21 : Group := { id := some 1, name := "g1", messages := [msg2, msg1] }

/-- The cache reached from `cache1` by a `createMessage` mutation patch
for `msg2`, a `messageAdded` event for `msg2` and a `groupAdded` event
for `group7`. -/
def cacheAfter : ClientCache :=
  { userResult := { id := some 1, email := "e", groups := [group1m2, group7] },
    groupResults := [(1, group1m21)] }

/-! ## Helper lemmas -/

theorem set_eq_self_of_get? {α : Type} :
    ∀ (l : List α) (i : Nat) (a : α), l.get? i = some a → l.set i a = l := by
  intro l
  induction l with
  | nil => intro i a h; cases h
  | cons x t ih =>
    intro i a h
    cases i with
    | zero => simp at h; simp [h]
    | succ n =>
      simp only [List.get?_cons_succ] at h
      simp only [List.set_cons_succ, List.cons.injEq, true_and]
      exact ih n a h

theorem findIdx_comp_map {α β : Type} (f : α → β) (p : β → Bool) (l : List α) :
    l.findIdx (fun a => p (f a)) = (l.map f).findIdx p := by
  induction l with
  | nil => rfl
  | cons a t ih => simp [List.findIdx_cons, ih]

/-- `isDuplicateMessage` is exactly membership of the id, once the id is
non-null. -/
theorem isDuplicateMessage_eq_false_iff {m : Message} {ms : List Message}
    (hid : m.id ≠ none) :
    isDuplicateMessage m ms = false ↔ m.id ∉ ms.map Message.id := by
  unfold isDuplicateMessage
  rw [Bool.and_eq_false_iff]
  constructor
  · intro h hmem
    rcases h with h | h
    · rw [bne_eq_false_iff_eq] at h
      exact hid h
    · rcases List.mem_map.mp hmem with ⟨msg, hmsg, hmsgid⟩
      rw [List.any_eq_false] at h
      exact absurd (beq_iff_eq.mpr hmsgid.symm) (by simpa using h msg hmsg)
  · intro h
    right
    rw [List.any_eq_false]
    intro msg hmsg
    simp only [Bool.not_eq_true, beq_eq_false_iff_ne, ne_eq]
    intro heq
    exact h (List.mem_map.mpr ⟨msg, hmsg, heq.symm⟩)

theorem isDuplicateGroup_eq_false_iff {g : Group} {gs : List Group}
    (hid : g.id ≠ none) :
    isDuplicateGroup g gs = false ↔ g.id ∉ gs.map Group.id := by
  unfold isDuplicateGroup
  rw [Bool.and_eq_false_iff]
  constructor
  · intro h hmem
    rcases h with h | h
    · rw [bne_eq_false_iff_eq] at h
      exact hid h
    · rcases List.mem_map.mp hmem with ⟨gr, hgr, hgrid⟩
      rw [List.any_eq_false] at h
      exact absurd (beq_iff_eq.mpr hgrid.symm) (by simpa using h gr hgr)
  · intro h
    right
    rw [List.any_eq_false]
    intro gr hgr
    simp only [Bool.not_eq_true, beq_eq_false_iff_ne, ne_eq]
    intro heq
    exact h (List.mem_map.mpr ⟨gr, hgr, heq.symm⟩)

/-- The generic duplicate check agrees with the message-specific one. -/
theorem isDuplicateDocument_message (m : Message) (ms : List Message) :
    isDuplicateDocument m ms = isDuplicateMessage m ms := rfl

/-- The generic duplicate check agrees with the group-specific one. -/
theorem isDuplicateDocument_group (g : Group) (gs : List Group) :
    isDuplicateDocument g gs = isDuplicateGroup g gs := rfl

/-- The `createGroup` mutation patch and the `groupAdded` subscription
patch are the same function on the cached USER_QUERY result. -/
theorem createGroupUpdate_eq_groupAddedReduce :
    createGroupUpdate = groupAddedReduce := rfl

theorem isDuplicateMessage_eq_true_iff {m : Message} {ms : List Message}
    (hid : m.id ≠ none) :
    isDuplicateMessage m ms = true ↔ m.id ∈ ms.map Message.id := by
  cases h : isDuplicateMessage m ms
  · simpa [h] using (isDuplicateMessage_eq_false_iff hid).mp h
  · simp only [true_iff]
    by_contra hmem
    exact absurd ((isDuplicateMessage_eq_false_iff hid).mpr hmem) (by simp [h])

theorem isDuplicateGroup_eq_true_iff {g : Group} {gs : List Group}
    (hid : g.id ≠ none) :
    isDuplicateGroup g gs = true ↔ g.id ∈ gs.map Group.id := by
  cases h : isDuplicateGroup g gs
  · simpa [h] using (isDuplicateGroup_eq_false_iff hid).mp h
  · simp only [true_iff]
    by_contra hmem
    exact absurd ((isDuplicateGroup_eq_false_iff hid).mpr hmem) (by simp [h])

/-- The mutation patch keeps a group's message ids duplicate-free, for a
non-null incoming id. -/
theorem createMessageUpdate_nodup {g : Group} {m : Message}
    (hid : m.id ≠ none) (h : (g.messages.map Message.id).Nodup) :
    (((createMessageUpdate g m).messages).map Message.id).Nodup := by
  cases hdup : isDuplicateMessage m g.messages
  · simp only [createMessageUpdate, hdup, Bool.false_eq_true, if_false, List.map_cons,
      List.nodup_cons]
    exact ⟨(isDuplicateMessage_eq_false_iff hid).mp hdup, h⟩
  · simpa only [createMessageUpdate, hdup, if_true] using h

/-- The `groupAdded` patch keeps the user's group ids duplicate-free and
every cached group's messages duplicate-free, for a well-formed incoming
group. -/
theorem groupAddedReduce_inv {u : UserResult} {g : Group}
    (hid : g.id ≠ none) (hg : (g.messages.map Message.id).Nodup)
    (h1 : (u.groups.map Group.id).Nodup)
    (h2 : ∀ gr ∈ u.groups, (gr.messages.map Message.id).Nodup) :
    ((groupAddedReduce u g).groups.map Group.id).Nodup ∧
      ∀ gr ∈ (groupAddedReduce u g).groups, (gr.messages.map Message.id).Nodup := by
  rw [groupAddedReduce, isDuplicateDocument_group]
  cases hdup : isDuplicateGroup g u.groups
  · simp only [Bool.false_eq_true, if_false]
    constructor
    · rw [List.map_append, List.nodup_append]
      refine ⟨h1, List.nodup_singleton _, ?_⟩
      intro x hx hx'
      simp only [List.map_cons, List.map_nil, List.mem_singleton] at hx'
      subst hx'
      exact (isDuplicateGroup_eq_false_iff hid).mp hdup hx
    · intro gr hgr
      rcases List.mem_append.mp hgr with hgr | hgr
      · exact h2 gr hgr
      · rw [List.mem_singleton] at hgr
        subst hgr
        exact hg
  · simp only [if_true]
    exact ⟨h1, h2⟩

/-- The `messageAdded` patch keeps the user's group ids unchanged and
every cached group's messages duplicate-free, with no condition on the
incoming message. -/
theorem messageAddedReduce_inv {u u' : UserResult} {m : Message}
    (h1 : (u.groups.map Group.id).Nodup)
    (h2 : ∀ g ∈ u.groups, (g.messages.map Message.id).Nodup)
    (happ : messageAddedReduce u m = some u') :
    (u'.groups.map Group.id).Nodup ∧
      ∀ g ∈ u'.groups, (g.messages.map Message.id).Nodup := by
  simp only [messageAddedReduce] at happ
  cases hget : u.groups.get? (u.groups.findIdx fun group => group.id == m.toGroup.id) with
  | none => rw [hget] at happ; cases happ
  | some g =>
    rw [hget] at happ
    cases hdup : isDuplicateDocument m g.messages
    · simp only [hdup, Bool.false_eq_true, if_false, Option.some.injEq] at happ
      subst happ
      constructor
      · have hids : (u.groups.set
              (u.groups.findIdx fun group => group.id == m.toGroup.id)
              { g with messages := [m] }).map Group.id = u.groups.map Group.id := by
          rw [List.map_set]
          exact set_eq_self_of_get? _ _ _ (by rw [List.get?_map, hget]; rfl)
        simpa [hids] using h1
      · intro gr hgr
        rcases List.mem_or_eq_of_mem_set hgr with hgr | hgr
        · exact h2 gr hgr
        · subst hgr
          simpa using List.nodup_singleton m.id
    · simp only [hdup, if_true, Option.some.injEq] at happ
      subst happ
      exact ⟨h1, h2⟩

/-- A single cache event preserves the no-duplicate-identities invariant. -/
theorem applyEvent_inv {c c' : ClientCache} {e : CacheEvent}
    (hinv : CacheInv c) (hwf : EventWF e) (happ : applyEvent c e = some c') :
    CacheInv c' := by
  obtain ⟨h1, h2, h3⟩ := hinv
  cases e with
  | messageMutation gid m =>
    simp only [applyEvent] at happ
    cases hget : c.groupResults.get? (c.groupResults.findIdx fun entry => entry.1 == gid) with
    | none => rw [hget] at happ; cases happ
    | some entry =>
      rw [hget] at happ
      simp only [Option.some.injEq] at happ
      subst happ
      refine ⟨h1, h2, ?_⟩
      intro p hp
      rcases List.mem_or_eq_of_mem_set hp with hp | hp
      · exact h3 p hp
      · subst hp
        exact createMessageUpdate_nodup hwf (h3 entry (List.get?_mem hget))
  | messageSub m =>
    rw [applyEvent] at happ
    cases hred : messageAddedReduce c.userResult m with
    | none => rw [hred] at happ; cases happ
    | some u' =>
      rw [hred] at happ
      simp only [Option.map_some', Option.some.injEq] at happ
      subst happ
      obtain ⟨k1, k2⟩ := messageAddedReduce_inv h1 h2 hred
      exact ⟨k1, k2, h3⟩
  | groupMutation g =>
    rw [applyEvent] at happ
    simp only [Option.some.injEq] at happ
    subst happ
    rw [createGroupUpdate_eq_groupAddedReduce]
    obtain ⟨k1, k2⟩ := groupAddedReduce_inv hwf.1 hwf.2 h1 h2
    exact ⟨k1, k2, h3⟩
  | groupSub g =>
    rw [applyEvent] at happ
    simp only [Option.some.injEq] at happ
    subst happ
    obtain ⟨k1, k2⟩ := groupAddedReduce_inv hwf.1 hwf.2 h1 h2
    exact ⟨k1, k2, h3⟩

/-- Every sequence of well-formed cache events preserves the invariant. -/
theorem applyEvents_inv {c c' : ClientCache} {es : List CacheEvent}
    (hinv : CacheInv c) (hwf : ∀ e ∈ es, EventWF e)
    (happ : applyEvents c es = some c') : CacheInv c' := by
  induction es generalizing c with
  | nil => rw [applyEvents] at happ; cases happ; exact hinv
  | cons e es ih =>
    rw [applyEvents] at happ
    cases h1 : applyEvent c e with
    | none => rw [h1] at happ; cases happ
    | some c₁ =>
      rw [h1] at happ
      exact ih (applyEvent_inv hinv (hwf e (List.mem_cons_self e es)) h1)
        (fun x hx => hwf x (List.mem_cons_of_mem e hx)) happ

theorem get?_set_self {α : Type} {l : List α} {i : Nat} (h : i < l.length) (a : α) :
    (l.set i a).get? i = some a := by
  rw [List.get?_set]
  simp [List.getElem?_eq_getElem h]

/-- `findIdx` over a predicate on a projection only looks at the
projected list. -/
theorem findIdx_eq_of_map_eq {α β : Type} (f : α → β) (p : β → Bool) :
    ∀ {l l' : List α}, l.map f = l'.map f →
      l.findIdx (fun a => p (f a)) = l'.findIdx (fun a => p (f a)) := by
  intro l
  induction l with
  | nil =>
    intro l' h
    cases l' with
    | nil => rfl
    | cons b t => cases h
  | cons a t ih =>
    intro l' h
    cases l' with
    | nil => cases h
    | cons b t' =>
      simp only [List.map_cons, List.cons.injEq] at h
      rw [List.findIdx_cons, List.findIdx_cons, h.1, ih h.2]

/-- Replacing a group's messages in place leaves the list of group ids
unchanged. -/
theorem map_id_set_messages {l : List Group} {i : Nat} {g : Group}
    (hget : l.get? i = some g) (msgs : List Message) :
    (l.set i { g with messages := msgs }).map Group.id = l.map Group.id := by
  rw [List.map_set]
  exact set_eq_self_of_get? _ _ _ (by rw [List.get?_map, hget]; rfl)

/-- The afterware's flag is true exactly when some response in the batch
carries the marker (accumulator-generalised form of the `forEach`). -/
theorem batchIsUnauthorized_foldl (b : Bool) :
    ∀ (responses : List Response),
      responses.foldl
        (fun isUnauthorized response =>
          match response.errors with
          | none => isUnauthorized
          | some errs =>
            if errs.any (fun e => e.message == "Unauthorized") then true
            else isUnauthorized)
        b = (b || responses.any responseUnauthorized) := by
  intro responses
  induction responses generalizing b with
  | nil => simp
  | cons r rs ih =>
    rw [List.foldl_cons, List.any_cons, ih]
    cases hr : r.errors with
    | none => simp [responseUnauthorized, hr]
    | some errs =>
      cases ha : errs.any (fun e => e.message == "Unauthorized") with
      | true => simp [responseUnauthorized, hr, ha]
      | false => simp [responseUnauthorized, hr, ha]

/-- The afterware's flag equals `any responseUnauthorized`. -/
theorem batchIsUnauthorized_eq_any (responses : List Response) :
    batchIsUnauthorized responses = responses.any responseUnauthorized := by
  rw [batchIsUnauthorized, batchIsUnauthorized_foldl]
  simp

/-- No message of `msgs` has id `v`, so the filter by id `v` is empty. -/
theorem filter_id_eq_nil {msgs : List Message} {v : Option Int}
    (h : v ∉ msgs.map Message.id) :
    msgs.filter (fun msg => msg.id == v) = [] := by
  rw [List.filter_eq_nil]
  intro x hx
  simp only [Bool.not_eq_true, beq_eq_false_iff_ne, ne_eq]
  intro heq
  exact h (List.mem_map.mpr ⟨x, hx, heq⟩)

/-- `groupAdded` reducer, duplicate branch: a non-null id already present
leaves the previous result unchanged. -/
theorem groupAddedReduce_dup_eq {u : UserResult} {g : Group} (hid : g.id ≠ none)
    (hmem : g.id ∈ u.groups.map Group.id) : groupAddedReduce u g = u := by
  rw [groupAddedReduce, isDuplicateDocument_group,
    if_pos ((isDuplicateGroup_eq_true_iff hid).mpr hmem)]

/-- `groupAdded` reducer, insert branch: a non-duplicate group is pushed
onto the end of the group list. -/
theorem groupAddedReduce_push {u : UserResult} {g : Group}
    (hdup : isDuplicateGroup g u.groups = false) :
    groupAddedReduce u g = { u with groups := u.groups ++ [g] } := by
  rw [groupAddedReduce, isDuplicateDocument_group,
    if_neg (by rw [hdup]; exact Bool.false_ne_true)]

/-- `messageAdded` reducer, duplicate branch. -/
theorem messageAddedReduce_dup_eq {u : UserResult} {m : Message} {g : Group}
    (hget : u.groups.get? (u.groups.findIdx fun gr => gr.id == m.toGroup.id) = some g)
    (hdup : isDuplicateDocument m g.messages = true) :
    messageAddedReduce u m = some u := by
  simp only [messageAddedReduce, hget, hdup, if_true]

/-- `messageAdded` reducer, insert branch: the target group's messages
list is replaced by the singleton `[newMessage]`. -/
theorem messageAddedReduce_set {u : UserResult} {m : Message} {g : Group}
    (hget : u.groups.get? (u.groups.findIdx fun gr => gr.id == m.toGroup.id) = some g)
    (hdup : isDuplicateDocument m g.messages = false) :
    messageAddedReduce u m
      = some { u with
               groups := u.groups.set (u.groups.findIdx fun gr => gr.id == m.toGroup.id)
                 { g with messages := [m] } } := by
  simp only [messageAddedReduce, hget, hdup, Bool.false_eq_true, if_false]

/-- Applying the `groupAdded` reducer twice with the same non-null-id
group equals applying it once. -/
theorem groupAddedReduce_idem {u : UserResult} {g : Group} (hid : g.id ≠ none) :
    groupAddedReduce (groupAddedReduce u g) g = groupAddedReduce u g := by
  cases hdup : isDuplicateGroup g u.groups with
  | true =>
    have h := groupAddedReduce_dup_eq hid ((isDuplicateGroup_eq_true_iff hid).mp hdup)
    rw [h]
    exact h
  | false =>
    rw [groupAddedReduce_push hdup]
    apply groupAddedReduce_dup_eq hid
    show g.id ∈ (u.groups ++ [g]).map Group.id
    exact List.mem_map.mpr ⟨g, List.mem_append_right _ (by simp), rfl⟩

/-- Applying the `messageAdded` reducer twice with the same non-null-id
message equals applying it once. -/
theorem messageAddedReduce_idem {u u' : UserResult} {m : Message} (hid : m.id ≠ none)
    (happ : messageAddedReduce u m = some u') : messageAddedReduce u' m = some u' := by
  cases hget : u.groups.get? (u.groups.findIdx fun gr => gr.id == m.toGroup.id) with
  | none =>
    rw [messageAddedReduce] at happ
    simp only [hget] at happ
    cases happ
  | some g =>
    cases hdup : isDuplicateDocument m g.messages with
    | true =>
      rw [messageAddedReduce_dup_eq hget hdup] at happ
      cases happ
      exact messageAddedReduce_dup_eq hget hdup
    | false =>
      rw [messageAddedReduce_set hget hdup] at happ
      cases happ
      have hi : (u.groups.findIdx fun gr => gr.id == m.toGroup.id) < u.groups.length := by
        by_contra hge
        rw [List.get?_eq_none.mpr (Nat.le_of_not_lt hge)] at hget
        cases hget
      have hmap : (u.groups.set (u.groups.findIdx fun gr => gr.id == m.toGroup.id)
            { g with messages := [m] }).map Group.id = u.groups.map Group.id :=
        map_id_set_messages hget [m]
      have hfind : ((u.groups.set (u.groups.findIdx fun gr => gr.id == m.toGroup.id)
              { g with messages := [m] }).findIdx fun gr => gr.id == m.toGroup.id)
          = u.groups.findIdx fun gr => gr.id == m.toGroup.id :=
        findIdx_eq_of_map_eq Group.id (fun x => x == m.toGroup.id) hmap
      have hdup' : isDuplicateDocument m ({ g with messages := [m] } : Group).messages
          = true := by
        show isDuplicateMessage m [m] = true
        simp only [isDuplicateMessage, List.any_cons, List.any_nil, Bool.or_false,
          beq_self_eq_true, Bool.and_true]
        exact bne_iff_ne.mpr hid
      have hget' : ({ u with
              groups := u.groups.set (u.groups.findIdx fun gr => gr.id == m.toGroup.id)
                { g with messages := [m] } } : UserResult).groups.get?
            (({ u with
              groups := u.groups.set (u.groups.findIdx fun gr => gr.id == m.toGroup.id)
                { g with messages := [m] } } : UserResult).groups.findIdx
              fun gr => gr.id == m.toGroup.id)
          = some { g with messages := [m] } := by
        show (u.groups.set (u.groups.findIdx fun gr => gr.id == m.toGroup.id)
              { g with messages := [m] }).get?
            ((u.groups.set (u.groups.findIdx fun gr => gr.id == m.toGroup.id)
              { g with messages := [m] }).findIdx fun gr => gr.id == m.toGroup.id)
          = some { g with messages := [m] }
        rw [hfind]
        exact get?_set_self hi _
      exact messageAddedReduce_dup_eq hget' hdup'

/-! ## Claim theorems -/

/-- C1: Race safety — if the authoritative Message (id 42) was already
applied to the cached group result by the subscription push before the
mutation's own response is processed, the `createMessage` mutation's
patch function detects the later-arriving response as a duplicate (same
id already in `group.messages`) and discards it, leaving the cache
unchanged with exactly one id-42 Message. -/
theorem c1_race_safety {g : Group} {m : Message}
    (hid : m.id = some 42)
    (hcount : (g.messages.filter (fun msg => msg.id == some 42)).length = 1) :
    createMessageUpdate g m = g ∧
      ((createMessageUpdate g m).messages.filter (fun msg => msg.id == some 42)).length = 1 := by
  have hne : g.messages.filter (fun msg => msg.id == some 42) ≠ [] := by
    intro hnil
    rw [hnil] at hcount
    cases hcount
  obtain ⟨x, hx⟩ := List.exists_mem_of_ne_nil _ hne
  obtain ⟨hxmem, hxid⟩ := List.mem_filter.mp hx
  have hmem : m.id ∈ g.messages.map Message.id := by
    rw [hid]
    exact List.mem_map.mpr ⟨x, hxmem, beq_iff_eq.mp hxid⟩
  have hdup : isDuplicateMessage m g.messages = true :=
    (isDuplicateMessage_eq_true_iff (by rw [hid]; exact Option.some_ne_none _)).mpr hmem
  have heq : createMessageUpdate g m = g := by
    rw [createMessageUpdate, if_pos hdup]
  exact ⟨heq, by rw [heq]; exact hcount⟩

/-- Witness for C1: a group already caching `msg42`; the mutation
response carrying `msg42` is discarded and exactly one id-42 message
remains. -/
theorem c1_race_safety_witness :
    createMessageUpdate { id := some 1, name := "g1", messages := [msg42] } msg42
        = { id := some 1, name := "g1", messages := [msg42] } ∧
      ((createMessageUpdate { id := some 1, name := "g1", messages := [msg42] }
          msg42).messages.filter (fun msg => msg.id == some 42)).length = 1 :=
  c1_race_safety (by decide) (by decide)

/-- C2 counterexample: the claim quantifies over every sequence of local
mutation patches and subscription events, but two `groupAdded` events
carrying the same null-id group both pass the dedup check (which treats a
null id as never-duplicate) and are both pushed, leaving two groups with
equal (null) id in the user's groups list. -/
theorem c2_counterexample :
    CacheInv { userResult := user0, groupResults := [] } ∧
      applyEvents { userResult := user0, groupResults := [] }
          [CacheEvent.groupSub groupNull, CacheEvent.groupSub groupNull]
        = some { userResult := { id := some 1, email := "e", groups := [groupNull, groupNull] },
                 groupResults := [] } ∧
      ¬ (({ id := some 1, email := "e", groups := [groupNull, groupNull] } :
            UserResult).groups.map Group.id).Nodup :=
  ⟨by decide, by decide, by decide⟩

/-- C2 (amended): for every sequence of local mutation cache patches and
incoming subscription events whose carried entities are well formed
(mutation-response Messages and event Groups carry non-null ids, and a
carried Group's own messages list is duplicate-free), every Group's
messages list and the User's groups list never contain two entries with
equal id — in particular at most one entry carries the sentinel id of a
pending optimistic send. -/
theorem c2_no_duplicate_identities {c c' : ClientCache} {es : List CacheEvent}
    (hinv : CacheInv c) (hwf : ∀ e ∈ es, EventWF e)
    (happ : applyEvents c es = some c') : CacheInv c' :=
  applyEvents_inv hinv hwf happ

/-- Witness for C2: a mutation patch, a messageAdded event and a
groupAdded event applied to a populated cache keep the invariant. -/
theorem c2_no_duplicate_identities_witness : CacheInv cacheAfter :=
  @c2_no_duplicate_identities cache1 cacheAfter
    [CacheEvent.messageMutation 1 msg2, CacheEvent.messageSub msg2, CacheEvent.groupSub group7]
    (by decide) (by decide) (by decide)

/-- C3: Optimistic supersession — a mutation issued with a speculative
Message of sentinel id -1, followed by an authoritative response with id
42, leaves exactly one id-42 Message in the cached group result and no
sentinel entry: the speculative layer is dropped and the authoritative
result is patched into the prior value. -/
theorem c3_optimistic_supersession {prior : Group} {specMsg authMsg : Message}
    (hspec : specMsg.id = some (-1)) (hauth : authMsg.id = some 42)
    (h42 : some 42 ∉ prior.messages.map Message.id)
    (hneg : some (-1) ∉ prior.messages.map Message.id) :
    (((completeMutation (beginMutation prior (some specMsg))
          (Except.ok authMsg)).1.messages.filter (fun msg => msg.id == some 42)).length = 1) ∧
      (((completeMutation (beginMutation prior (some specMsg))
          (Except.ok authMsg)).1.messages.filter
            (fun msg => msg.id == some (-1))).length = 0) := by
  have hfin : (completeMutation (beginMutation prior (some specMsg)) (Except.ok authMsg)).1
      = createMessageUpdate prior authMsg := rfl
  have hdup : isDuplicateMessage authMsg prior.messages = false := by
    rw [isDuplicateMessage_eq_false_iff (by rw [hauth]; exact Option.some_ne_none _), hauth]
    exact h42
  have hmsgs : (createMessageUpdate prior authMsg).messages = authMsg :: prior.messages := by
    rw [createMessageUpdate, if_neg (by rw [hdup]; exact Bool.false_ne_true)]
  rw [hfin, hmsgs]
  constructor
  · rw [List.filter_cons_of_pos (by rw [hauth]; rfl), filter_id_eq_nil h42]
    rfl
  · rw [List.filter_cons_of_neg (by rw [hauth]; decide), filter_id_eq_nil hneg]
    rfl

/-- Witness for C3: the literal scenario — speculative `optimisticResponse`
with text "hi" and sentinel id -1 over an empty cached group, then the
authoritative `msg42` (id 42, text "hi"). -/
theorem c3_optimistic_supersession_witness :
    (((completeMutation (beginMutation group1empty (some (optimisticResponse "hi" "t" (some 1))))
          (Except.ok msg42)).1.messages.filter (fun msg => msg.id == some 42)).length = 1) ∧
      (((completeMutation (beginMutation group1empty (some (optimisticResponse "hi" "t" (some 1))))
          (Except.ok msg42)).1.messages.filter (fun msg => msg.id == some (-1))).length = 0) :=
  c3_optimistic_supersession (by decide) (by decide) (by decide) (by decide)

/-- C4 counterexample: with group 1 caching `[msg1]`, the non-duplicate
`messageAdded` event carrying `msg2` makes the cached messages list
exactly `[msg2]` — the previously cached `msg1` is not preserved behind
the new message, contradicting the claim's "the rest of the previously
cached messages are preserved behind it". -/
theorem c4_counterexample :
    messageAddedReduce user1 msg2
        = some { id := some 1, email := "e",
                 groups := [{ id := some 1, name := "g1", messages := [msg2] }] } ∧
      messageAddedReduce user1 msg2
        ≠ some { id := some 1, email := "e",
                 groups := [{ id := some 1, name := "g1", messages := [msg2, msg1] }] } :=
  ⟨by decide, by decide⟩

/-- C4 (amended): when the Subscription Cache Patcher inserts a
non-duplicate entity, a new Message becomes the sole element of the
target group's messages list (the previously cached messages are
discarded, not preserved), and a new Group is appended to the end of the
user's group list (the previous groups are preserved in front of it). -/
theorem c4_insertion_order {u : UserResult} {m : Message} {g g' : Group}
    (hget : u.groups.get? (u.groups.findIdx fun gr => gr.id == m.toGroup.id) = some g)
    (hdupm : isDuplicateDocument m g.messages = false)
    (hdupg : isDuplicateDocument g' u.groups = false) :
    messageAddedReduce u m
        = some { u with
                 groups := u.groups.set (u.groups.findIdx fun gr => gr.id == m.toGroup.id)
                   { g with messages := [m] } } ∧
      (groupAddedReduce u g').groups = u.groups ++ [g'] :=
  ⟨messageAddedReduce_set hget hdupm, by
    rw [groupAddedReduce, if_neg (by rw [hdupg]; exact Bool.false_ne_true)]⟩

/-- Witness for C4 (amended): `msg2` into `user1`'s group 1, and
`group7` onto `user1`'s group list. -/
theorem c4_insertion_order_witness :
    messageAddedReduce user1 msg2
        = some { user1 with
                 groups := user1.groups.set
                   (user1.groups.findIdx fun gr => gr.id == msg2.toGroup.id)
                   { group1 with messages := [msg2] } } ∧
      (groupAddedReduce user1 group7).groups = user1.groups ++ [group7] :=
  c4_insertion_order (by decide) (by decide) (by decide)

/-- C5 counterexample: a `groupAdded` event whose carried group has a
null id equal to the (null) id of a group already present in the target
list is not discarded — the reducer does not return the previous result
unchanged, so the claimed identity `reduce(prev, event) = prev` fails. -/
theorem c5_counterexample :
    groupNull.id ∈ (({ id := some 1, email := "e", groups := [groupNull] } :
          UserResult)).groups.map Group.id ∧
      groupAddedReduce { id := some 1, email := "e", groups := [groupNull] } groupNull
        ≠ { id := some 1, email := "e", groups := [groupNull] } :=
  ⟨by decide, by decide⟩

/-- C5 (amended): for every incoming subscription event whose carried
entity has a non-null id equal to the id of an entity already present in
the target list (the located group's messages for messageAdded, the
user's groups for groupAdded), the reducer returns the previous cache
result unchanged; consequently, for non-null-id events, applying the same
event twice equals applying it once. -/
theorem c5_dedup_identity :
    (∀ (u : UserResult) (g : Group), g.id ≠ none → g.id ∈ u.groups.map Group.id →
        groupAddedReduce u g = u) ∧
      (∀ (u : UserResult) (m : Message) (g : Group),
          u.groups.get? (u.groups.findIdx fun gr => gr.id == m.toGroup.id) = some g →
          m.id ≠ none → m.id ∈ g.messages.map Message.id →
          messageAddedReduce u m = some u) ∧
      (∀ (u : UserResult) (g : Group), g.id ≠ none →
          groupAddedReduce (groupAddedReduce u g) g = groupAddedReduce u g) ∧
      (∀ (u u' : UserResult) (m : Message), m.id ≠ none →
          messageAddedReduce u m = some u' → messageAddedReduce u' m = some u') := by
  refine ⟨?_, ?_, ?_, ?_⟩
  · intro u g hid hmem
    exact groupAddedReduce_dup_eq hid hmem
  · intro u m g hget hid hmem
    refine messageAddedReduce_dup_eq hget ?_
    rw [isDuplicateDocument_message]
    exact (isDuplicateMessage_eq_true_iff hid).mpr hmem
  · intro u g hid
    exact groupAddedReduce_idem hid
  · intro u u' m hid happ
    exact messageAddedReduce_idem hid happ

/-- Witness for C5 (amended): a duplicate `groupAdded` for `group1` is a
no-op on `user1`, and a duplicate `messageAdded` for `msg1` is a no-op. -/
theorem c5_dedup_identity_witness :
    groupAddedReduce user1 group1 = user1 ∧ messageAddedReduce user1 msg1 = some user1 :=
  ⟨c5_dedup_identity.1 user1 group1 (by decide) (by decide),
    c5_dedup_identity.2.1 user1 msg1 group1 (by decide) (by decide) (by decide)⟩

/-- C6: Batch auth short-circuit — if at least one response of a batch
carries an error with the recognized marker (message "Unauthorized"), the
afterware triggers the global sign-out exactly once for the batch,
however many responses carry the marker, and passes every response of
the batch through unchanged, so each operation still resolves or rejects
per its own individual result. -/
theorem c6_batch_auth_short_circuit {responses : List Response} {r : Response}
    (hr : r ∈ responses) (hauth : responseUnauthorized r = true) :
    (applyBatchAfterware responses).2 = 1 ∧
      (applyBatchAfterware responses).1 = responses := by
  have hany : responses.any responseUnauthorized = true :=
    List.any_eq_true.mpr ⟨r, hr, hauth⟩
  refine ⟨?_, rfl⟩
  simp only [applyBatchAfterware, batchIsUnauthorized_eq_any, hany, if_true]

/-- Witness for C6: a batch of three operations where the second carries
the marker — sign-out dispatched exactly once, responses forwarded
unchanged. -/
theorem c6_batch_auth_short_circuit_witness :
    (applyBatchAfterware
        [{ payload := some "d1", errors := none },
          { payload := none, errors := some [{ message := "Unauthorized" }] },
          { payload := none, errors := some [{ message := "boom" }] }]).2 = 1 ∧
      (applyBatchAfterware
        [{ payload := some "d1", errors := none },
          { payload := none, errors := some [{ message := "Unauthorized" }] },
          { payload := none, errors := some [{ message := "boom" }] }]).1
        = [{ payload := some "d1", errors := none },
            { payload := none, errors := some [{ message := "Unauthorized" }] },
            { payload := none, errors := some [{ message := "boom" }] }] :=
  c6_batch_auth_short_circuit
    (r := { payload := none, errors := some [{ message := "Unauthorized" }] })
    (by decide) (by decide)

/-- C7: Reconciliation failure atomicity — when a mutation issued with a
speculative result fails, the prior cache value is restored (every
message visible afterwards was already in the prior cache, so no
speculative entity survives) and the error is re-raised to the caller;
`FinalizeGroup.create` surfaces the re-raised error to the user. -/
theorem c7_reconciliation_failure_atomicity (cache : Group) (speculative : Message)
    (e : String) :
    completeMutation (beginMutation cache (some speculative)) (Except.error e)
        = (cache, some e) ∧
      (∀ m ∈ (completeMutation (beginMutation cache (some speculative))
          (Except.error e)).1.messages, m ∈ cache.messages) ∧
      finalizeGroupCreate (Except.error e)
        = CreateEffect.alert "Error Creating New Group" e :=
  ⟨rfl, fun _ hm => hm, rfl⟩

/-- C8: Credential freshness — on each outgoing batch the transport reads
the credential current at that moment and attaches a bearer header only
when it is present (none is attached when absent), and on each
(re)connection attempt the subscription channel sends the credential
current at that moment as connection metadata, still emitting the attempt
when the credential is absent or cleared. -/
theorem c8_credential_freshness (jwt : Option String) (pre : List AuthEvent) :
    runAuth jwt (pre ++ [AuthEvent.sendBatch])
        = runAuth jwt pre
            ++ [NetAction.batchSent ((credAfter jwt pre).map (fun t => "Bearer " ++ t))] ∧
      runAuth jwt (pre ++ [AuthEvent.reconnect])
        = runAuth jwt pre ++ [NetAction.connectAttempt (credAfter jwt pre)] := by
  induction pre generalizing jwt with
  | nil =>
    cases jwt <;>
      simp [runAuth, credAfter, applyBatchMiddleware, connectionParams]
  | cons e es ih =>
    cases e <;> simp [runAuth, credAfter, ih]

/-- C9: The `messageAdded` reducer throws (embedded: returns `none`)
exactly when the event's `to.id` matches no cached group — the reducer is
total only under the implicit precondition that the target group is
already present in the cached list. -/
theorem c9_messageAdded_precondition (u : UserResult) (m : Message) :
    messageAddedReduce u m = none ↔ ∀ g ∈ u.groups, g.id ≠ m.toGroup.id := by
  constructor
  · intro h g hg heq
    have hlt : (u.groups.findIdx fun gr => gr.id == m.toGroup.id) < u.groups.length :=
      List.findIdx_lt_length.mpr ⟨g, hg, beq_iff_eq.mpr heq⟩
    have hget : u.groups.get? (u.groups.findIdx fun gr => gr.id == m.toGroup.id)
        = some (u.groups.get ⟨_, hlt⟩) := List.get?_eq_get hlt
    rw [messageAddedReduce] at h
    simp only [hget] at h
    split at h <;> cases h
  · intro h
    have hall : ∀ x ∈ u.groups, (fun gr => gr.id == m.toGroup.id) x = false := by
      intro x hx
      simpa using h x hx
    have hlen : (u.groups.findIdx fun gr => gr.id == m.toGroup.id) = u.groups.length :=
      List.findIdx_eq_length.mpr hall
    simp only [messageAddedReduce, hlen, List.get?_eq_none.mpr (le_refl u.groups.length)]

/-- C10: Null-id dedup bypass — every duplicate check returns false when
the incoming entity's id is null, so a null-id entity is always inserted
(the mutation patch prepends it, the groupAdded reducer appends it)
regardless of what the target list contains; a dedup discard only ever
occurs for a non-null id. -/
theorem c10_null_id_dedup_bypass :
    (∀ (m : Message) (ms : List Message), m.id = none → isDuplicateMessage m ms = false) ∧
      (∀ (g : Group) (gs : List Group), g.id = none → isDuplicateGroup g gs = false) ∧
      (∀ (m : Message) (ms : List Message), m.id = none →
          isDuplicateDocument m ms = false) ∧
      (∀ (g : Group) (m : Message), m.id = none →
          (createMessageUpdate g m).messages = m :: g.messages) ∧
      (∀ (u : UserResult) (g : Group), g.id = none →
          (groupAddedReduce u g).groups = u.groups ++ [g]) ∧
      (∀ (m : Message) (ms : List Message), isDuplicateMessage m ms = true → m.id ≠ none) ∧
      (∀ (g : Group) (gs : List Group), isDuplicateGroup g gs = true → g.id ≠ none) := by
  have hmsg : ∀ (m : Message) (ms : List Message), m.id = none →
      isDuplicateMessage m ms = false := by
    intro m ms h
    simp [isDuplicateMessage, h]
  have hgrp : ∀ (g : Group) (gs : List Group), g.id = none →
      isDuplicateGroup g gs = false := by
    intro g gs h
    simp [isDuplicateGroup, h]
  refine ⟨hmsg, hgrp, ?_, ?_, ?_, ?_, ?_⟩
  · intro m ms h
    rw [isDuplicateDocument_message]
    exact hmsg m ms h
  · intro g m h
    rw [createMessageUpdate,
      if_neg (by rw [hmsg m g.messages h]; exact Bool.false_ne_true)]
  · intro u g h
    rw [groupAddedReduce, isDuplicateDocument_group,
      if_neg (by rw [hgrp g u.groups h]; exact Bool.false_ne_true)]
  · intro m ms hdup h
    rw [hmsg m ms h] at hdup
    cases hdup
  · intro g gs hdup h
    rw [hgrp g gs h] at hdup
    cases hdup

/-- Witness for C10: the null-id `msgNull` passes the dedup check even
against a list already holding it, and a null-id group is appended even
when already present. -/
theorem c10_null_id_dedup_bypass_witness :
    isDuplicateMessage msgNull [msgNull] = false ∧
      (groupAddedReduce { id := some 1, email := "e", groups := [groupNull] }
          groupNull).groups = [groupNull] ++ [groupNull] :=
  ⟨c10_null_id_dedup_bypass.1 msgNull [msgNull] rfl,
    c10_null_id_dedup_bypass.2.2.2.2.1
      { id := some 1, email := "e", groups := [groupNull] } groupNull rfl⟩

end Chatty
